import Mathlib

/-!
Verification development for the janki-frontend repository.

The definitions below are a shallow embedding of the nontrivial client
logic of the repository:

* the status-convergence pollers `pollDocumentStatus` / `pollDeleteStatus`
  from `src/app/(auth)/manage-documents/page.tsx`,
* the NextAuth `jwt` callback (backend session bridge) from
  `src/lib/auth-config.ts`,
* the axios request interceptor of `ApiClient` from `src/lib/api-client.ts`,
* the chat `handleSend` routine together with the store's `addMessage`
  from the chat page and `src/store/appStore.ts`.

JavaScript asynchrony is modelled by passing the sequence of network
results explicitly (the n-th call to the status endpoint receives
`responses n`); JavaScript truthiness is modelled explicitly where the
source relies on it.
-/

namespace Janki

/-- Response of `GET /documents/{id}/status` as consumed by the pollers:
the fields `available`, `exists_in_storage`, `exists_in_db` of the JSON
payload. -/
structure DocumentStatusResponse where
  available : Bool
  exists_in_storage : Bool
  exists_in_db : Bool
deriving DecidableEq, Repr

/-- The information about a failed `checkDocumentStatus` call that the
pollers inspect: `err?.response?.status` and whether
`err?.message?.includes("not found")` holds. -/
structure PollFailure where
  responseStatus : Option Nat
  messageHasNotFound : Bool
deriving DecidableEq, Repr

/-- Outcome of one `apiClient.checkDocumentStatus` call: either the parsed
response or a thrown error. -/
abbrev CheckResult := Except PollFailure DocumentStatusResponse

/-- The status tags stored in the `documentStatuses` record of the
Manage Documents page. -/
inductive DocStatus
  | uploading
  | uploaded
  | deleting
  | deleted
deriving DecidableEq, Repr

/-- Observable actions of a poller run, in order: a call to the status
endpoint (numbered by call count), an assignment to the resource's entry
in `documentStatuses`, an `await setTimeout` pause, and the scheduled
removal of the tracking entry (`setTimeout(..., 2000)`). -/
inductive PollAction
  | query (attempt : Nat)
  | setStatus (s : DocStatus)
  | wait (ms : Nat)
  | scheduleRemoval (ms : Nat)
deriving DecidableEq, Repr

/-- The upload poller's convergence test
(`status.available && status.exists_in_storage && status.exists_in_db`). -/
def uploadConverged (r : DocumentStatusResponse) : Bool :=
  r.available && r.exists_in_storage && r.exists_in_db

/-- One loop iteration body of `pollDocumentStatus` after the status call:
on a converged response set `uploaded` and stop (`return`); on a
non-converged response set `uploading` again and wait `intervalMs`; on a
thrown error just wait (`// Continue polling on error, keep as uploading`).
Returns the emitted actions and whether the loop returns early. -/
def uploadStep (r : CheckResult) (intervalMs : Nat) : List PollAction × Bool :=
  match r with
  | .ok s =>
      if uploadConverged s then ([.setStatus .uploaded], true)
      else ([.setStatus .uploading, .wait intervalMs], false)
  | .error _ => ([.wait intervalMs], false)

/-- The `for (let attempt = 0; attempt < maxAttempts; attempt++)` loop of
`pollDocumentStatus`; `attempt` is the index of the next status call,
`fuel` the number of remaining iterations. Returns the emitted actions and
whether the loop exited via the converged `return`. -/
def pollDocLoop (responses : Nat → CheckResult) (intervalMs : Nat) :
    Nat → Nat → List PollAction × Bool
  | _, 0 => ([], false)
  | attempt, fuel + 1 =>
      let step := uploadStep (responses attempt) intervalMs
      if step.2 then (PollAction.query attempt :: step.1, true)
      else
        let rest := pollDocLoop responses intervalMs (attempt + 1) fuel
        (PollAction.query attempt :: step.1 ++ rest.1, rest.2)

/-- The post-loop final check of `pollDocumentStatus`: one more status call;
set `uploaded` if converged, otherwise (including on a thrown error) set
`uploading`. -/
def uploadFinalCheck (r : CheckResult) : List PollAction :=
  match r with
  | .ok s =>
      if uploadConverged s then [.setStatus .uploaded] else [.setStatus .uploading]
  | .error _ => [.setStatus .uploading]

/-- `pollDocumentStatus(documentId, maxAttempts = 30, intervalMs = 1000)`:
set the tag to `uploading`, run the bounded loop, and if the loop exhausted
its attempts run the final check. The TypeScript function's promise
resolves with `undefined` on every path, so the modelled return value is
`(trace, none)`: the caller receives no success/failure indication. -/
def pollDocumentStatus (responses : Nat → CheckResult)
    (maxAttempts intervalMs : Nat) : List PollAction × Option Bool :=
  let loop := pollDocLoop responses intervalMs 0 maxAttempts
  if loop.2 then (PollAction.setStatus .uploading :: loop.1, none)
  else
    (PollAction.setStatus .uploading :: loop.1 ++
      (PollAction.query maxAttempts :: uploadFinalCheck (responses maxAttempts)), none)

/-- The delete poller's test for a thrown status-call error that counts as
"already deleted"
(`err?.response?.status === 404 || err?.message?.includes("not found")`). -/
def deleteNotFoundError (e : PollFailure) : Bool :=
  e.responseStatus == some 404 || e.messageHasNotFound

/-- One loop iteration body of `pollDeleteStatus` after the status call:
if `!status.exists_in_db`, set `deleted`, schedule removal of the tracking
entry after 2000 ms and return `true`; otherwise set `deleting` and wait.
A thrown 404 / "not found" error is treated the same as a deleted
resource; any other error just waits. -/
def deleteStep (r : CheckResult) (intervalMs : Nat) : List PollAction × Bool :=
  match r with
  | .ok s =>
      if !s.exists_in_db then
        ([.setStatus .deleted, .scheduleRemoval 2000], true)
      else ([.setStatus .deleting, .wait intervalMs], false)
  | .error e =>
      if deleteNotFoundError e then
        ([.setStatus .deleted, .scheduleRemoval 2000], true)
      else ([.wait intervalMs], false)

/-- The bounded loop of `pollDeleteStatus`, analogous to `pollDocLoop`. -/
def pollDeleteLoop (responses : Nat → CheckResult) (intervalMs : Nat) :
    Nat → Nat → List PollAction × Bool
  | _, 0 => ([], false)
  | attempt, fuel + 1 =>
      let step := deleteStep (responses attempt) intervalMs
      if step.2 then (PollAction.query attempt :: step.1, true)
      else
        let rest := pollDeleteLoop responses intervalMs (attempt + 1) fuel
        (PollAction.query attempt :: step.1 ++ rest.1, rest.2)

/-- The post-loop final check of `pollDeleteStatus`: one more status call;
on `!exists_in_db` or a 404 / "not found" error set `deleted`, schedule
removal and return `true`; otherwise set `deleting` and fall through to
`return false`. -/
def deleteFinalCheck (r : CheckResult) : List PollAction × Bool :=
  match r with
  | .ok s =>
      if !s.exists_in_db then
        ([.setStatus .deleted, .scheduleRemoval 2000], true)
      else ([.setStatus .deleting], false)
  | .error e =>
      if deleteNotFoundError e then
        ([.setStatus .deleted, .scheduleRemoval 2000], true)
      else ([.setStatus .deleting], false)

/-- `pollDeleteStatus(documentId, maxAttempts = 30, intervalMs = 1000)`:
set the tag to `deleting`, run the bounded loop, and if the loop exhausted
its attempts run the final check. The returned `Option Bool` is the
promise's value: `some true` on the deleted paths, `some false` on
timeout. -/
def pollDeleteStatus (responses : Nat → CheckResult)
    (maxAttempts intervalMs : Nat) : List PollAction × Option Bool :=
  let loop := pollDeleteLoop responses intervalMs 0 maxAttempts
  if loop.2 then (PollAction.setStatus .deleting :: loop.1, some true)
  else
    let fin := deleteFinalCheck (responses maxAttempts)
    (PollAction.setStatus .deleting :: loop.1 ++
      (PollAction.query maxAttempts :: fin.1), some fin.2)

/-- Number of status-endpoint calls recorded in a trace. -/
def countQueries : List PollAction → Nat
  | [] => 0
  | .query _ :: t => countQueries t + 1
  | _ :: t => countQueries t

/-- Number of `await setTimeout` pauses recorded in a trace. -/
def countWaits : List PollAction → Nat
  | [] => 0
  | .wait _ :: t => countWaits t + 1
  | _ :: t => countWaits t

/-- The sequence of status tags assigned to the resource, in order. -/
def statusesAssigned : List PollAction → List DocStatus
  | [] => []
  | .setStatus s :: t => s :: statusesAssigned t
  | _ :: t => statusesAssigned t

/-- Whether a status-call outcome satisfies the upload poller's convergence
test (a thrown error never does). -/
def uploadConvergedResult (r : CheckResult) : Bool :=
  match r with
  | .ok s => uploadConverged s
  | .error _ => false

/-- Whether a status-call outcome counts as converged for the delete
poller: `!exists_in_db`, or a 404 / "not found" error. -/
def deleteConvergedResult (r : CheckResult) : Bool :=
  match r with
  | .ok s => !s.exists_in_db
  | .error e => deleteNotFoundError e

/-- A status endpoint that never reports convergence for an upload. -/
def neverConvergedResponses : Nat → CheckResult :=
  fun _ => .ok ⟨false, false, false⟩

/-- A status endpoint that reports upload convergence on every call. -/
def alwaysConvergedResponses : Nat → CheckResult :=
  fun _ => .ok ⟨true, true, true⟩

/-! ### Backend session bridge (`authOptions.callbacks.jwt` in `auth-config.ts`) -/

/-- JavaScript truthiness of an optional string (`undefined` and the empty
string are falsy). -/
def jsStrTruthy (o : Option String) : Bool :=
  match o with
  | some s => s ≠ ""
  | none => false

/-- JavaScript `a || b` on optional strings: `b` whenever `a` is falsy. -/
def jsOrStr (a b : Option String) : Option String :=
  if jsStrTruthy a then a else b

/-- Whether `pat` occurs at the front of `l`. -/
def leadsWith : List Char → List Char → Bool
  | [], _ => true
  | _ :: _, [] => false
  | a :: as, b :: bs => a == b && leadsWith as bs

/-- Whether `pat` occurs somewhere in `l`. -/
def charsContains : List Char → List Char → Bool
  | [], pat => pat.isEmpty
  | h :: t, pat => leadsWith pat (h :: t) || charsContains t pat

/-- `s.includes(pat)` for strings (substring test). -/
def strContains (s pat : String) : Bool :=
  charsContains s.data pat.data

/-- ASCII uppercasing of one character. -/
def charUpper (c : Char) : Char :=
  if 'a' ≤ c && c ≤ 'z' then Char.ofNat (c.toNat - 32) else c

/-- `s.toUpperCase()` for the ASCII method names the client uses. -/
def strUpper (s : String) : String :=
  ⟨s.data.map charUpper⟩

/-- The whitespace characters relevant to `trim` here. -/
def isJsWs (c : Char) : Bool :=
  c == ' ' || c == '\t' || c == '\n' || c == '\r'

/-- `s.trim()`. -/
def strTrim (s : String) : String :=
  ⟨((s.data.dropWhile isJsWs).reverse.dropWhile isJsWs).reverse⟩

/-- `s.split("\n")` at the character level. -/
def splitOnNl : List Char → List (List Char)
  | [] => [[]]
  | c :: rest =>
      let r := splitOnNl rest
      if c == '\n' then [] :: r
      else
        match r with
        | [] => [[c]]
        | h :: t => (c :: h) :: t

/-- `s.split("\n").join(" ")`. -/
def strJoinLines (s : String) : String :=
  ⟨(List.intersperse [' '] (splitOnNl s.data)).flatten⟩

/-- The parts of a thrown axios error that the `jwt` callback inspects:
`error.response?.status`, `error.response?.data?.detail`, `error.message`. -/
structure BackendErrorInfo where
  status : Option Nat
  detail : Option String
  message : String
deriving DecidableEq, Repr

/-- The `user` object of a successful `/auth/verify` response
(`response.data.user`). -/
structure VerifyUser where
  id : Option String
  is_admin : Option Bool
deriving DecidableEq, Repr

/-- The body of a successful `/auth/verify` or `/auth/verify-email`
response (`response.data`). -/
structure VerifyResponse where
  token : Option String
  user : Option VerifyUser
deriving DecidableEq, Repr

/-- The fields of the NextAuth JWT token record that the `jwt` callback
writes. `backendToken` distinguishes `undefined` (`none`), the explicit
`null` marker (`some none`) and a stored token (`some (some t)`). -/
structure TokenRecord where
  backendToken : Option (Option String)
  userId : Option String
  isAdmin : Bool
  email : Option String
  backendError : Option String
deriving DecidableEq, Repr

/-- The domain-rejection test of the catch blocks:
`error.response?.status === 403 &&
 error.response?.data?.detail?.includes("Email domain not allowed")`. -/
def isDomainRejection (e : BackendErrorInfo) : Bool :=
  e.status == some 403 &&
    (match e.detail with
     | some d => strContains d "Email domain not allowed"
     | none => false)

/-- `token.backendToken = token.backendToken ?? null`: a previously stored
string (even the empty one) is preserved; `undefined` and `null` become the
explicit `null` marker. -/
def preservedBackendToken (prior : Option (Option String)) : Option (Option String) :=
  match prior with
  | some (some t) => some (some t)
  | _ => some none

/-- `error.response?.data?.detail || error.message || "Backend unavailable"`. -/
def backendErrorText (e : BackendErrorInfo) : String :=
  match e.detail with
  | some d =>
      if d ≠ "" then d
      else if e.message ≠ "" then e.message else "Backend unavailable"
  | none => if e.message ≠ "" then e.message else "Backend unavailable"

/-- The shared catch-block logic of both verification paths: a 403 whose
detail mentions the domain policy rethrows (aborting sign-in); every other
failure degrades the session instead of failing it. -/
def exchangeFailure (prior : TokenRecord) (userId userEmail : Option String)
    (e : BackendErrorInfo) : Except String TokenRecord :=
  if isDomainRejection e then .error "Email domain not allowed"
  else
    .ok { backendToken := preservedBackendToken prior.backendToken
          userId := jsOrStr (jsOrStr userId userEmail) none
          isAdmin := false
          email := jsOrStr userEmail none
          backendError := some (backendErrorText e) }

/-- `response.data.user?.id`. -/
def respUserId (r : VerifyResponse) : Option String :=
  r.user.bind VerifyUser.id

/-- `response.data.user?.is_admin || false`. -/
def respIsAdmin (r : VerifyResponse) : Bool :=
  (r.user.bind VerifyUser.is_admin).getD false

/-- The `idTokenToUse` branch of the `jwt` callback: call `/auth/verify`;
on a response carrying a truthy `token` store it; a response without a
token throws "Backend response missing token", which lands in the same
catch block as transport errors. -/
def idTokenBranch (prior : TokenRecord) (userId userEmail : Option String)
    (verifyResult : Except BackendErrorInfo VerifyResponse) :
    Except String TokenRecord :=
  match verifyResult with
  | .ok r =>
      match r.token with
      | some t =>
          if t ≠ "" then
            .ok { backendToken := some (some t)
                  userId := jsOrStr (respUserId r) userEmail
                  isAdmin := respIsAdmin r
                  email := jsOrStr userEmail none
                  backendError := prior.backendError }
          else exchangeFailure prior userId userEmail ⟨none, none, "Backend response missing token"⟩
      | none => exchangeFailure prior userId userEmail ⟨none, none, "Backend response missing token"⟩
  | .error e => exchangeFailure prior userId userEmail e

/-- The fallback branch taken when no ID token is available but
`user.email` is: call `/auth/verify-email` with
`const userId = user.id || user.email` and handle the outcome like the
main branch. -/
def emailFallbackBranch (prior : TokenRecord) (userId userEmail : Option String)
    (verifyEmailResult : Except BackendErrorInfo VerifyResponse) :
    Except String TokenRecord :=
  let fallbackUserId := jsOrStr userId userEmail
  match verifyEmailResult with
  | .ok r =>
      match r.token with
      | some t =>
          if t ≠ "" then
            .ok { backendToken := some (some t)
                  userId := jsOrStr (respUserId r) fallbackUserId
                  isAdmin := respIsAdmin r
                  email := jsOrStr userEmail none
                  backendError := prior.backendError }
          else exchangeFailure prior userId userEmail ⟨none, none, "Backend response missing token"⟩
      | none => exchangeFailure prior userId userEmail ⟨none, none, "Backend response missing token"⟩
  | .error e => exchangeFailure prior userId userEmail e

/-- The token record produced when neither an ID token nor an email is
available. -/
def noIdentityRecord : TokenRecord :=
  { backendToken := some none
    userId := none
    isAdmin := false
    email := none
    backendError := some "No ID token or email available from Google OAuth" }

/-- The `jwt` callback. `signInEvent` is `account && user` (the initial
sign-in); on subsequent invocations the token is returned unchanged.
`verifyResult` / `verifyEmailResult` are the outcomes the backend would
give to `/auth/verify` resp. `/auth/verify-email`; only the branch that is
actually taken consults its outcome. A `.error` return models the callback
throwing, which makes NextAuth abort session creation. -/
def jwtCallback (prior : TokenRecord) (signInEvent : Bool)
    (idToken userId userEmail : Option String)
    (verifyResult verifyEmailResult : Except BackendErrorInfo VerifyResponse) :
    Except String TokenRecord :=
  if !signInEvent then .ok prior
  else if jsStrTruthy idToken then idTokenBranch prior userId userEmail verifyResult
  else if jsStrTruthy userEmail then emailFallbackBranch prior userId userEmail verifyEmailResult
  else .ok noIdentityRecord

/-! ### Authenticated HTTP client (request interceptor in `api-client.ts`) -/

/-- A JavaScript value as far as the request interceptor distinguishes
values: strings, numbers, booleans, `null`, `FormData`, and other
objects. -/
inductive JsValue
  | str (s : String)
  | num (n : Int)
  | boolean (b : Bool)
  | jsNull
  | formData
  | obj
deriving DecidableEq, Repr

/-- JavaScript truthiness. -/
def JsValue.truthy : JsValue → Bool
  | .str s => s ≠ ""
  | .num n => n ≠ 0
  | .boolean b => b
  | .jsNull => false
  | .formData => true
  | .obj => true

/-- The parts of the axios request config the interceptor reads or
writes. -/
structure RequestConfig where
  method : Option String
  data : Option JsValue
  authorization : Option String
  contentType : Option String
deriving DecidableEq, Repr

/-- The part of the NextAuth session the interceptor reads:
`session?.backendToken` (which the type declarations allow to be a string,
`null` or `undefined`, and the code defends against other values). -/
structure SessionData where
  backendToken : Option JsValue
deriving DecidableEq, Repr

/-- The auth part of the interceptor: `getSession()` may fail (`.error`),
return no session (`.ok none`) or a session. The header is attached only
when `backendToken && typeof backendToken === "string" &&
backendToken.trim().length > 0`; on every other path the config passes
through untouched (the catch block deliberately does not throw). -/
def authStep (sessionResult : Except Unit (Option SessionData))
    (config : RequestConfig) : RequestConfig :=
  match sessionResult with
  | .error _ => config
  | .ok sess =>
      match sess.bind SessionData.backendToken with
      | some (.str s) =>
          if s ≠ "" && (strTrim s).length > 0 then
            { config with authorization := some ("Bearer " ++ s) }
          else config
      | _ => config

/-- `if (config.data instanceof FormData) delete config.headers["Content-Type"]`. -/
def formDataStep (config : RequestConfig) : RequestConfig :=
  if config.data == some .formData then { config with contentType := none }
  else config

/-- `const method = config.method?.toUpperCase();
if ((method === "GET" || method === "HEAD") && config.data) delete config.data;`
Note the truthiness test on `config.data`. -/
def bodyStripStep (config : RequestConfig) : RequestConfig :=
  let m := config.method.map strUpper
  if (m == some "GET" || m == some "HEAD") &&
      (match config.data with | some v => v.truthy | none => false) then
    { config with data := none }
  else config

/-- The whole request interceptor: auth header, FormData content-type fix,
GET/HEAD body strip, in source order. It always returns a config — a
request is never blocked client-side. -/
def requestInterceptor (sessionResult : Except Unit (Option SessionData))
    (config : RequestConfig) : RequestConfig :=
  bodyStripStep (formDataStep (authStep sessionResult config))

/-! ### Chat send (`handleSend` in the chat page, `addMessage` in `appStore.ts`) -/

/-- A chat message as held in the store, with the fields `handleSend`
constructs; `sources` is optional as in the TypeScript type. -/
structure ChatMessage where
  id : String
  conversation_id : String
  role : String
  content : String
  sources : Option (List String)
  created_at : String
deriving DecidableEq, Repr

/-- The body of a successful `POST /chat` response as used by
`handleSend`. -/
structure ChatResponseData where
  conversation_id : String
  message_id : String
  response : String
  sources : Option (List String)
deriving DecidableEq, Repr

/-- `messages: [...state.messages, message]` — the store appends at the
end. -/
def addMessage (messages : List ChatMessage) (m : ChatMessage) : List ChatMessage :=
  messages ++ [m]

/-- JavaScript `o || d` for an optional string against a string default. -/
def jsOrStrD (o : Option String) (d : String) : String :=
  match o with
  | some s => if s ≠ "" then s else d
  | none => d

/-- The default text when the thrown error has no usable message. -/
def defaultSendError : String :=
  "Failed to send message. Please check if the backend is running and try again."

/-- The keyword test that classifies an error message as an
authentication problem. -/
def authKeywordIn (m : String) : Bool :=
  strContains m "authentication" || strContains m "token" || strContains m "401" ||
    strContains m "expired" || strContains m "invalid"

/-- The replacement text shown for authentication problems. -/
def refreshSessionNotice : String :=
  "⚠️ Your session needs to be refreshed. Click \u0027Refresh Session\u0027 below or log out and log back in to connect to the backend."

/-- The error-message normalisation of the catch block of `handleSend`:
fall back to the default text, rewrite authentication-related messages,
and join multi-line messages with spaces. -/
def transformSendError (raw : Option String) : String :=
  let m0 := jsOrStrD raw defaultSendError
  let m1 := if authKeywordIn m0 then refreshSessionNotice else m0
  if strContains m1 "\n" then strJoinLines m1 else m1

/-- The optimistic user message appended before the network call
(`conversation_id: conversationId || "new"`). -/
def mkUserMessage (conversationId : Option String) (nowId nowIso content : String) :
    ChatMessage :=
  { id := nowId
    conversation_id := jsOrStrD conversationId "new"
    role := "USER"
    content := content
    sources := none
    created_at := nowIso }

/-- The message appended after the network call returns: the assistant
reply on success, the error entry on failure. -/
def mkReplyMessage (conversationId : Option String) (errId nowIso : String)
    (result : Except (Option String) ChatResponseData) : ChatMessage :=
  match result with
  | .ok r =>
      { id := r.message_id
        conversation_id := r.conversation_id
        role := "ASSISTANT"
        content := r.response
        sources := some (r.sources.getD [])
        created_at := nowIso }
  | .error em =>
      { id := errId
        conversation_id := jsOrStrD conversationId "error"
        role := "ASSISTANT"
        content := "❌ " ++ transformSendError em
        sources := none
        created_at := nowIso }

/-- `handleSend`, restricted to its effect on the message list: guard
clauses (`isReadOnly`, empty trimmed input, `loading`), then the
optimistic user-message append, then — after the awaited network result —
the reply or error append. `result` is the outcome of
`apiClient.sendChatMessage` (`.error` carries `error?.message`); the ids
and timestamps generated at run time are passed in. -/
def handleSend (isReadOnly : Bool) (input : String) (loading : Bool)
    (conversationId : Option String) (nowId nowIso errId : String)
    (messages : List ChatMessage)
    (result : Except (Option String) ChatResponseData) : List ChatMessage :=
  if isReadOnly then messages
  else
    let trimmed := strTrim input
    if trimmed = "" || loading then messages
    else
      let afterUser := addMessage messages (mkUserMessage conversationId nowId nowIso trimmed)
      addMessage afterUser (mkReplyMessage conversationId errId nowIso result)


/-! ### Auxiliary notions used by the theorems -/

/-- Keep only the network-visible actions of a trace: status calls and the
pauses between them. -/
def isQueryOrWait : PollAction → Bool
  | .query _ => true
  | .wait _ => true
  | _ => false

/-- The pattern "status call, one interval pause, status call, ..." that a
poller's bounded loop produces when no call converges: `fuel` calls
starting at call number `attempt`, each followed by an `intervalMs`
pause. -/
def queryWaitSeq (intervalMs : Nat) : Nat → Nat → List PollAction
  | _, 0 => []
  | attempt, fuel + 1 =>
      .query attempt :: .wait intervalMs :: queryWaitSeq intervalMs (attempt + 1) fuel

/-- The backend token the interceptor ends up inspecting: `none` when
`getSession()` threw, returned no session, or the session has no
`backendToken`. -/
def backendTokenOf (sr : Except Unit (Option SessionData)) : Option JsValue :=
  match sr with
  | .ok sess => sess.bind SessionData.backendToken
  | .error _ => none

/-- A status endpoint claiming storage and catalog existence but a falsy
`available` flag, on every call. -/
def storageDbOnlyResponses : Nat → CheckResult :=
  fun _ => .ok ⟨false, true, true⟩

/-- A status endpoint for which a delete never converges: the catalog
entry keeps existing and no call fails. -/
def stillInDbResponses : Nat → CheckResult :=
  fun _ => .ok ⟨true, true, true⟩

end Janki


/-! ## Theorems -/

namespace Janki

lemma countQueries_append (a b : List PollAction) :
    countQueries (a ++ b) = countQueries a + countQueries b := by
  induction a with
  | nil => simp [countQueries]
  | cons h t ih =>
      cases h <;> simp [countQueries, ih]
      omega

lemma statusesAssigned_append (a b : List PollAction) :
    statusesAssigned (a ++ b) = statusesAssigned a ++ statusesAssigned b := by
  induction a with
  | nil => simp [statusesAssigned]
  | cons h t ih => cases h <;> simp [statusesAssigned, ih]

lemma countQueries_uploadFinalCheck (r : CheckResult) :
    countQueries (uploadFinalCheck r) = 0 := by
  rcases r with e | s
  · simp [uploadFinalCheck, countQueries]
  · by_cases hc : uploadConverged s = true <;>
      simp [uploadFinalCheck, hc, countQueries]

lemma pollDocLoop_never (responses : Nat → CheckResult) (iv : Nat)
    (h : ∀ n, uploadConvergedResult (responses n) = false) :
    ∀ fuel attempt,
      (pollDocLoop responses iv attempt fuel).2 = false ∧
      (pollDocLoop responses iv attempt fuel).1.filter isQueryOrWait =
        queryWaitSeq iv attempt fuel ∧
      countQueries (pollDocLoop responses iv attempt fuel).1 = fuel ∧
      ∀ s ∈ statusesAssigned (pollDocLoop responses iv attempt fuel).1,
        s = DocStatus.uploading := by
  intro fuel
  induction fuel with
  | zero =>
      intro attempt
      simp [pollDocLoop, queryWaitSeq, countQueries, statusesAssigned]
  | succ n ih =>
      intro attempt
      have hr := h attempt
      obtain ⟨ih2, ihf, ihq, ihs⟩ := ih (attempt + 1)
      cases hre : responses attempt with
      | ok s =>
          have hc : uploadConverged s = false := by
            simpa [uploadConvergedResult, hre] using hr
          refine ⟨?_, ?_, ?_, ?_⟩
          · simp [pollDocLoop, uploadStep, hre, hc, ih2]
          · simp [pollDocLoop, uploadStep, hre, hc, queryWaitSeq, isQueryOrWait, ihf]
          · simp [pollDocLoop, uploadStep, hre, hc, countQueries, ihq]
          · intro x hx
            simp [pollDocLoop, uploadStep, hre, hc, statusesAssigned] at hx
            rcases hx with hx | hx
            · exact hx
            · exact ihs x hx
      | error e =>
          refine ⟨?_, ?_, ?_, ?_⟩
          · simp [pollDocLoop, uploadStep, hre, ih2]
          · simp [pollDocLoop, uploadStep, hre, queryWaitSeq, isQueryOrWait, ihf]
          · simp [pollDocLoop, uploadStep, hre, countQueries, ihq]
          · intro x hx
            simp [pollDocLoop, uploadStep, hre, statusesAssigned] at hx
            exact ihs x hx

lemma filter_isQueryOrWait_uploadFinalCheck (r : CheckResult) :
    (uploadFinalCheck r).filter isQueryOrWait = [] := by
  rcases r with e | s
  · simp [uploadFinalCheck, isQueryOrWait]
  · by_cases hc : uploadConverged s = true <;>
      simp [uploadFinalCheck, hc, isQueryOrWait]

lemma statusesAssigned_uploadFinalCheck_notConverged (r : CheckResult)
    (h : uploadConvergedResult r = false) :
    statusesAssigned (uploadFinalCheck r) = [DocStatus.uploading] := by
  rcases r with e | s
  · simp [uploadFinalCheck, statusesAssigned]
  · have hc : uploadConverged s = false := by simpa [uploadConvergedResult] using h
    simp [uploadFinalCheck, hc, statusesAssigned]

lemma pollDocumentStatus_never (responses : Nat → CheckResult) (maxA iv : Nat)
    (h : ∀ n, uploadConvergedResult (responses n) = false) :
    (pollDocumentStatus responses maxA iv).1.filter isQueryOrWait =
        queryWaitSeq iv 0 maxA ++ [PollAction.query maxA] ∧
    countQueries (pollDocumentStatus responses maxA iv).1 = maxA + 1 ∧
    (∀ s ∈ statusesAssigned (pollDocumentStatus responses maxA iv).1,
        s = DocStatus.uploading) ∧
    statusesAssigned (pollDocumentStatus responses maxA iv).1 ≠ [] ∧
    (pollDocumentStatus responses maxA iv).2 = none := by
  obtain ⟨h2, hf, hq, hs⟩ := pollDocLoop_never responses iv h maxA 0
  have hfin := statusesAssigned_uploadFinalCheck_notConverged (responses maxA) (h maxA)
  refine ⟨?_, ?_, ?_, ?_, ?_⟩
  · simp [pollDocumentStatus, h2, List.filter_append, isQueryOrWait, hf,
      filter_isQueryOrWait_uploadFinalCheck]
  · simp [pollDocumentStatus, h2, countQueries, countQueries_append, hq,
      countQueries_uploadFinalCheck]
  · intro x hx
    simp [pollDocumentStatus, h2, statusesAssigned, statusesAssigned_append, hfin] at hx
    rcases hx with hx | hx | hx
    · exact hx
    · exact hs x hx
    · exact hx
  · simp [pollDocumentStatus, h2, statusesAssigned]
  · simp [pollDocumentStatus, h2]

lemma countQueries_deleteFinalCheck_notConverged (r : CheckResult)
    (h : deleteConvergedResult r = false) :
    countQueries (deleteFinalCheck r).1 = 0 ∧
    statusesAssigned (deleteFinalCheck r).1 = [DocStatus.deleting] ∧
    (deleteFinalCheck r).2 = false := by
  rcases r with e | s
  · have he : deleteNotFoundError e = false := by simpa [deleteConvergedResult] using h
    simp [deleteFinalCheck, he, countQueries, statusesAssigned]
  · have hdb : s.exists_in_db = true := by
      rcases hdb : s.exists_in_db with _ | _
      · simp [deleteConvergedResult, hdb] at h
      · rfl
    simp [deleteFinalCheck, hdb, countQueries, statusesAssigned]

lemma pollDeleteLoop_never (responses : Nat → CheckResult) (iv : Nat)
    (h : ∀ n, deleteConvergedResult (responses n) = false) :
    ∀ fuel attempt,
      (pollDeleteLoop responses iv attempt fuel).2 = false ∧
      countQueries (pollDeleteLoop responses iv attempt fuel).1 = fuel ∧
      ∀ s ∈ statusesAssigned (pollDeleteLoop responses iv attempt fuel).1,
        s = DocStatus.deleting := by
  intro fuel
  induction fuel with
  | zero =>
      intro attempt
      simp [pollDeleteLoop, countQueries, statusesAssigned]
  | succ n ih =>
      intro attempt
      have hr := h attempt
      obtain ⟨ih2, ihq, ihs⟩ := ih (attempt + 1)
      cases hre : responses attempt with
      | ok s =>
          have hdb : s.exists_in_db = true := by
            rcases hdb : s.exists_in_db with _ | _
            · simp [deleteConvergedResult, hre, hdb] at hr
            · rfl
          refine ⟨?_, ?_, ?_⟩
          · simp [pollDeleteLoop, deleteStep, hre, hdb, ih2]
          · simp [pollDeleteLoop, deleteStep, hre, hdb, countQueries, ihq]
          · intro x hx
            simp [pollDeleteLoop, deleteStep, hre, hdb, statusesAssigned] at hx
            rcases hx with hx | hx
            · exact hx
            · exact ihs x hx
      | error e =>
          have he : deleteNotFoundError e = false := by
            simpa [deleteConvergedResult, hre] using hr
          refine ⟨?_, ?_, ?_⟩
          · simp [pollDeleteLoop, deleteStep, hre, he, ih2]
          · simp [pollDeleteLoop, deleteStep, hre, he, countQueries, ihq]
          · intro x hx
            simp [pollDeleteLoop, deleteStep, hre, he, statusesAssigned] at hx
            exact ihs x hx

lemma pollDeleteStatus_never (responses : Nat → CheckResult) (maxA iv : Nat)
    (h : ∀ n, deleteConvergedResult (responses n) = false) :
    countQueries (pollDeleteStatus responses maxA iv).1 = maxA + 1 ∧
    (∀ s ∈ statusesAssigned (pollDeleteStatus responses maxA iv).1,
        s = DocStatus.deleting) ∧
    statusesAssigned (pollDeleteStatus responses maxA iv).1 ≠ [] ∧
    (pollDeleteStatus responses maxA iv).2 = some false := by
  obtain ⟨h2, hq, hs⟩ := pollDeleteLoop_never responses iv h maxA 0
  obtain ⟨hfq, hfs, hf2⟩ :=
    countQueries_deleteFinalCheck_notConverged (responses maxA) (h maxA)
  refine ⟨?_, ?_, ?_, ?_⟩
  · simp [pollDeleteStatus, h2, countQueries, countQueries_append, hq, hfq]
  · intro x hx
    simp [pollDeleteStatus, h2, statusesAssigned, statusesAssigned_append, hfs] at hx
    rcases hx with hx | hx | hx
    · exact hx
    · exact hs x hx
    · exact hx
  · simp [pollDeleteStatus, h2, statusesAssigned]
  · simp [pollDeleteStatus, h2, hf2]

lemma pollDocLoop_shape (responses : Nat → CheckResult) (iv : Nat) :
    ∀ fuel attempt, ∃ m,
      ((pollDocLoop responses iv attempt fuel).2 = true ∧
        statusesAssigned (pollDocLoop responses iv attempt fuel).1 =
          List.replicate m DocStatus.uploading ++ [DocStatus.uploaded]) ∨
      ((pollDocLoop responses iv attempt fuel).2 = false ∧
        statusesAssigned (pollDocLoop responses iv attempt fuel).1 =
          List.replicate m DocStatus.uploading) := by
  intro fuel
  induction fuel with
  | zero =>
      intro attempt
      exact ⟨0, Or.inr ⟨rfl, by simp [pollDocLoop, statusesAssigned]⟩⟩
  | succ n ih =>
      intro attempt
      obtain ⟨m, hm⟩ := ih (attempt + 1)
      cases hre : responses attempt with
      | ok s =>
          by_cases hc : uploadConverged s = true
          · exact ⟨0, Or.inl ⟨by simp [pollDocLoop, uploadStep, hre, hc],
              by simp [pollDocLoop, uploadStep, hre, hc, statusesAssigned]⟩⟩
          · have hc' : uploadConverged s = false := by simpa using hc
            rcases hm with ⟨h2, hst⟩ | ⟨h2, hst⟩
            · exact ⟨m + 1, Or.inl ⟨by simp [pollDocLoop, uploadStep, hre, hc', h2],
                by simp [pollDocLoop, uploadStep, hre, hc', statusesAssigned,
                  statusesAssigned_append, hst, List.replicate_succ]⟩⟩
            · exact ⟨m + 1, Or.inr ⟨by simp [pollDocLoop, uploadStep, hre, hc', h2],
                by simp [pollDocLoop, uploadStep, hre, hc', statusesAssigned,
                  statusesAssigned_append, hst, List.replicate_succ]⟩⟩
      | error e =>
          rcases hm with ⟨h2, hst⟩ | ⟨h2, hst⟩
          · exact ⟨m, Or.inl ⟨by simp [pollDocLoop, uploadStep, hre, h2],
              by simp [pollDocLoop, uploadStep, hre, statusesAssigned,
                statusesAssigned_append, hst]⟩⟩
          · exact ⟨m, Or.inr ⟨by simp [pollDocLoop, uploadStep, hre, h2],
              by simp [pollDocLoop, uploadStep, hre, statusesAssigned,
                statusesAssigned_append, hst]⟩⟩

lemma pollDocLoop_uploaded_mem (responses : Nat → CheckResult) (iv : Nat) :
    ∀ fuel attempt,
      DocStatus.uploaded ∈ statusesAssigned (pollDocLoop responses iv attempt fuel).1 →
      ∃ n, attempt ≤ n ∧ n < attempt + fuel ∧ uploadConvergedResult (responses n) = true := by
  intro fuel
  induction fuel with
  | zero =>
      intro attempt hmem
      simp [pollDocLoop, statusesAssigned] at hmem
  | succ k ih =>
      intro attempt hmem
      cases hre : responses attempt with
      | ok s =>
          by_cases hc : uploadConverged s = true
          · exact ⟨attempt, le_refl _, by omega, by simp [uploadConvergedResult, hre, hc]⟩
          · have hc' : uploadConverged s = false := by simpa using hc
            simp [pollDocLoop, uploadStep, hre, hc', statusesAssigned,
              statusesAssigned_append] at hmem
            obtain ⟨n, hn1, hn2, hn3⟩ := ih (attempt + 1) hmem
            exact ⟨n, by omega, by omega, hn3⟩
      | error e =>
          simp [pollDocLoop, uploadStep, hre, statusesAssigned,
            statusesAssigned_append] at hmem
          obtain ⟨n, hn1, hn2, hn3⟩ := ih (attempt + 1) hmem
          exact ⟨n, by omega, by omega, hn3⟩

lemma pollDeleteLoop_shape (responses : Nat → CheckResult) (iv : Nat) :
    ∀ fuel attempt, ∃ m,
      ((pollDeleteLoop responses iv attempt fuel).2 = true ∧
        statusesAssigned (pollDeleteLoop responses iv attempt fuel).1 =
          List.replicate m DocStatus.deleting ++ [DocStatus.deleted]) ∨
      ((pollDeleteLoop responses iv attempt fuel).2 = false ∧
        statusesAssigned (pollDeleteLoop responses iv attempt fuel).1 =
          List.replicate m DocStatus.deleting) := by
  intro fuel
  induction fuel with
  | zero =>
      intro attempt
      exact ⟨0, Or.inr ⟨rfl, by simp [pollDeleteLoop, statusesAssigned]⟩⟩
  | succ n ih =>
      intro attempt
      obtain ⟨m, hm⟩ := ih (attempt + 1)
      cases hre : responses attempt with
      | ok s =>
          by_cases hdb : s.exists_in_db = true
          · rcases hm with ⟨h2, hst⟩ | ⟨h2, hst⟩
            · exact ⟨m + 1, Or.inl ⟨by simp [pollDeleteLoop, deleteStep, hre, hdb, h2],
                by simp [pollDeleteLoop, deleteStep, hre, hdb, statusesAssigned,
                  statusesAssigned_append, hst, List.replicate_succ]⟩⟩
            · exact ⟨m + 1, Or.inr ⟨by simp [pollDeleteLoop, deleteStep, hre, hdb, h2],
                by simp [pollDeleteLoop, deleteStep, hre, hdb, statusesAssigned,
                  statusesAssigned_append, hst, List.replicate_succ]⟩⟩
          · have hdb' : s.exists_in_db = false := by simpa using hdb
            exact ⟨0, Or.inl ⟨by simp [pollDeleteLoop, deleteStep, hre, hdb'],
              by simp [pollDeleteLoop, deleteStep, hre, hdb', statusesAssigned]⟩⟩
      | error e =>
          by_cases hnf : deleteNotFoundError e = true
          · exact ⟨0, Or.inl ⟨by simp [pollDeleteLoop, deleteStep, hre, hnf],
              by simp [pollDeleteLoop, deleteStep, hre, hnf, statusesAssigned]⟩⟩
          · have hnf' : deleteNotFoundError e = false := by simpa using hnf
            rcases hm with ⟨h2, hst⟩ | ⟨h2, hst⟩
            · exact ⟨m, Or.inl ⟨by simp [pollDeleteLoop, deleteStep, hre, hnf', h2],
                by simp [pollDeleteLoop, deleteStep, hre, hnf', statusesAssigned,
                  statusesAssigned_append, hst]⟩⟩
            · exact ⟨m, Or.inr ⟨by simp [pollDeleteLoop, deleteStep, hre, hnf', h2],
                by simp [pollDeleteLoop, deleteStep, hre, hnf', statusesAssigned,
                  statusesAssigned_append, hst]⟩⟩

lemma pollDeleteLoop_deleted_mem (responses : Nat → CheckResult) (iv : Nat) :
    ∀ fuel attempt,
      DocStatus.deleted ∈ statusesAssigned (pollDeleteLoop responses iv attempt fuel).1 →
      ∃ n, attempt ≤ n ∧ n < attempt + fuel ∧ deleteConvergedResult (responses n) = true := by
  intro fuel
  induction fuel with
  | zero =>
      intro attempt hmem
      simp [pollDeleteLoop, statusesAssigned] at hmem
  | succ k ih =>
      intro attempt hmem
      cases hre : responses attempt with
      | ok s =>
          by_cases hdb : s.exists_in_db = true
          · simp [pollDeleteLoop, deleteStep, hre, hdb, statusesAssigned,
              statusesAssigned_append] at hmem
            obtain ⟨n, hn1, hn2, hn3⟩ := ih (attempt + 1) hmem
            exact ⟨n, by omega, by omega, hn3⟩
          · have hdb' : s.exists_in_db = false := by simpa using hdb
            exact ⟨attempt, le_refl _, by omega,
              by simp [deleteConvergedResult, hre, hdb']⟩
      | error e =>
          by_cases hnf : deleteNotFoundError e = true
          · exact ⟨attempt, le_refl _, by omega,
              by simp [deleteConvergedResult, hre, hnf]⟩
          · have hnf' : deleteNotFoundError e = false := by simpa using hnf
            simp [pollDeleteLoop, deleteStep, hre, hnf', statusesAssigned,
              statusesAssigned_append] at hmem
            obtain ⟨n, hn1, hn2, hn3⟩ := ih (attempt + 1) hmem
            exact ⟨n, by omega, by omega, hn3⟩

lemma statusesAssigned_uploadFinalCheck_converged (r : CheckResult)
    (h : uploadConvergedResult r = true) :
    statusesAssigned (uploadFinalCheck r) = [DocStatus.uploaded] := by
  rcases r with e | s
  · simp [uploadConvergedResult] at h
  · have hc : uploadConverged s = true := by simpa [uploadConvergedResult] using h
    simp [uploadFinalCheck, hc, statusesAssigned]

lemma deleteFinalCheck_converged (r : CheckResult)
    (h : deleteConvergedResult r = true) :
    deleteFinalCheck r =
      ([PollAction.setStatus DocStatus.deleted, PollAction.scheduleRemoval 2000], true) := by
  rcases r with e | s
  · have hnf : deleteNotFoundError e = true := by simpa [deleteConvergedResult] using h
    simp [deleteFinalCheck, hnf]
  · have hdb : s.exists_in_db = false := by
      rcases hdb : s.exists_in_db with _ | _
      · rfl
      · simp [deleteConvergedResult, hdb] at h
    simp [deleteFinalCheck, hdb]

lemma deleteFinalCheck_notConverged (r : CheckResult)
    (h : deleteConvergedResult r = false) :
    deleteFinalCheck r = ([PollAction.setStatus DocStatus.deleting], false) := by
  rcases r with e | s
  · have hnf : deleteNotFoundError e = false := by simpa [deleteConvergedResult] using h
    simp [deleteFinalCheck, hnf]
  · have hdb : s.exists_in_db = true := by
      rcases hdb : s.exists_in_db with _ | _
      · simp [deleteConvergedResult, hdb] at h
      · rfl
    simp [deleteFinalCheck, hdb]

lemma pollDocumentStatus_shape (responses : Nat → CheckResult) (maxA iv : Nat) :
    ∃ k, 1 ≤ k ∧
      (statusesAssigned (pollDocumentStatus responses maxA iv).1 =
          List.replicate k DocStatus.uploading ++ [DocStatus.uploaded] ∨
        statusesAssigned (pollDocumentStatus responses maxA iv).1 =
          List.replicate k DocStatus.uploading) := by
  obtain ⟨m, hm⟩ := pollDocLoop_shape responses iv maxA 0
  rcases hm with ⟨h2, hst⟩ | ⟨h2, hst⟩
  · exact ⟨m + 1, by omega, Or.inl (by
      simp [pollDocumentStatus, h2, statusesAssigned, hst, List.replicate_succ])⟩
  · rcases hc : uploadConvergedResult (responses maxA) with _ | _
    · refine ⟨m + 2, by omega, Or.inr ?_⟩
      have hfin := statusesAssigned_uploadFinalCheck_notConverged (responses maxA) hc
      calc statusesAssigned (pollDocumentStatus responses maxA iv).1
          = DocStatus.uploading ::
              (List.replicate m DocStatus.uploading ++ [DocStatus.uploading]) := by
            simp [pollDocumentStatus, h2, statusesAssigned, statusesAssigned_append,
              hst, hfin]
        _ = List.replicate (m + 2) DocStatus.uploading := by
            rw [← List.replicate_succ' m, ← List.replicate_succ]
    · refine ⟨m + 1, by omega, Or.inl ?_⟩
      have hfin := statusesAssigned_uploadFinalCheck_converged (responses maxA) hc
      simp [pollDocumentStatus, h2, statusesAssigned, statusesAssigned_append,
        hst, hfin, List.replicate_succ]

lemma pollDeleteStatus_shape (responses : Nat → CheckResult) (maxA iv : Nat) :
    ∃ k, 1 ≤ k ∧
      (statusesAssigned (pollDeleteStatus responses maxA iv).1 =
          List.replicate k DocStatus.deleting ++ [DocStatus.deleted] ∨
        statusesAssigned (pollDeleteStatus responses maxA iv).1 =
          List.replicate k DocStatus.deleting) := by
  obtain ⟨m, hm⟩ := pollDeleteLoop_shape responses iv maxA 0
  rcases hm with ⟨h2, hst⟩ | ⟨h2, hst⟩
  · exact ⟨m + 1, by omega, Or.inl (by
      simp [pollDeleteStatus, h2, statusesAssigned, hst, List.replicate_succ])⟩
  · rcases hc : deleteConvergedResult (responses maxA) with _ | _
    · refine ⟨m + 2, by omega, Or.inr ?_⟩
      have hfin := deleteFinalCheck_notConverged (responses maxA) hc
      calc statusesAssigned (pollDeleteStatus responses maxA iv).1
          = DocStatus.deleting ::
              (List.replicate m DocStatus.deleting ++ [DocStatus.deleting]) := by
            simp [pollDeleteStatus, h2, statusesAssigned, statusesAssigned_append,
              hst, hfin]
        _ = List.replicate (m + 2) DocStatus.deleting := by
            rw [← List.replicate_succ' m, ← List.replicate_succ]
    · refine ⟨m + 1, by omega, Or.inl ?_⟩
      have hfin := deleteFinalCheck_converged (responses maxA) hc
      simp [pollDeleteStatus, h2, statusesAssigned, statusesAssigned_append,
        hst, hfin, List.replicate_succ]

lemma pollDocumentStatus_uploaded_mem (responses : Nat → CheckResult) (maxA iv : Nat)
    (hmem : DocStatus.uploaded ∈ statusesAssigned (pollDocumentStatus responses maxA iv).1) :
    ∃ n, n ≤ maxA ∧ uploadConvergedResult (responses n) = true := by
  rcases hl : (pollDocLoop responses iv 0 maxA).2 with _ | _
  · rcases hc : uploadConvergedResult (responses maxA) with _ | _
    · have hfin := statusesAssigned_uploadFinalCheck_notConverged (responses maxA) hc
      simp [pollDocumentStatus, hl, statusesAssigned, statusesAssigned_append, hfin] at hmem
      obtain ⟨n, _, hn2, hn3⟩ := pollDocLoop_uploaded_mem responses iv maxA 0 hmem
      exact ⟨n, by omega, hn3⟩
    · exact ⟨maxA, le_refl _, hc⟩
  · simp [pollDocumentStatus, hl, statusesAssigned] at hmem
    obtain ⟨n, _, hn2, hn3⟩ := pollDocLoop_uploaded_mem responses iv maxA 0 hmem
    exact ⟨n, by omega, hn3⟩

lemma pollDeleteStatus_deleted_mem (responses : Nat → CheckResult) (maxA iv : Nat)
    (hmem : DocStatus.deleted ∈ statusesAssigned (pollDeleteStatus responses maxA iv).1) :
    ∃ n, n ≤ maxA ∧ deleteConvergedResult (responses n) = true := by
  rcases hl : (pollDeleteLoop responses iv 0 maxA).2 with _ | _
  · rcases hc : deleteConvergedResult (responses maxA) with _ | _
    · have hfin := deleteFinalCheck_notConverged (responses maxA) hc
      simp [pollDeleteStatus, hl, statusesAssigned, statusesAssigned_append, hfin] at hmem
      obtain ⟨n, _, hn2, hn3⟩ := pollDeleteLoop_deleted_mem responses iv maxA 0 hmem
      exact ⟨n, by omega, hn3⟩
    · exact ⟨maxA, le_refl _, hc⟩
  · simp [pollDeleteStatus, hl, statusesAssigned] at hmem
    obtain ⟨n, _, hn2, hn3⟩ := pollDeleteLoop_deleted_mem responses iv maxA 0 hmem
    exact ⟨n, by omega, hn3⟩

/-- C1 (counterexample): against a status endpoint that never reports
convergence, the upload poller with the configured budget of 30 attempts
and 1-second interval does NOT perform exactly 30 status queries: the 30
budgeted queries are followed by one more final check, 31 queries in
total. -/
theorem upload_poller_not_exactly_thirty_queries :
    countQueries (pollDocumentStatus neverConvergedResponses 30 1000).1 ≠ 30 := by
  decide

/-- C1 (amended): if no status query ever reports convergence, the upload
poller performs its 30 budgeted queries each followed by the configured
1000 ms interval, plus one final status check — 31 queries in total — and
then stops without ever assigning the success tag `uploaded`. -/
theorem upload_poller_budget_plus_final_check (responses : Nat → CheckResult)
    (h : ∀ n, uploadConvergedResult (responses n) = false) :
    (pollDocumentStatus responses 30 1000).1.filter isQueryOrWait =
        queryWaitSeq 1000 0 30 ++ [PollAction.query 30] ∧
    countQueries (pollDocumentStatus responses 30 1000).1 = 31 ∧
    DocStatus.uploaded ∉ statusesAssigned (pollDocumentStatus responses 30 1000).1 := by
  obtain ⟨hf, hq, hs, _, _⟩ := pollDocumentStatus_never responses 30 1000 h
  refine ⟨hf, hq, fun hmem => ?_⟩
  have := hs _ hmem
  simp at this

theorem upload_poller_budget_plus_final_check_witness :
    countQueries (pollDocumentStatus neverConvergedResponses 30 1000).1 = 31 :=
  (upload_poller_budget_plus_final_check neverConvergedResponses (fun _ => rfl)).2.1

/-- C2 (counterexample): the upload poller's promise resolves with the
same value (`undefined`, modelled `none`) after a run that timed out as
after a run that converged immediately — it does not return a
failure/timeout signal to its caller. -/
theorem upload_poller_returns_no_timeout_signal :
    (pollDocumentStatus neverConvergedResponses 30 1000).2 =
      (pollDocumentStatus alwaysConvergedResponses 30 1000).2 := by
  decide

/-- C2 (amended): when a poller exhausts its 30-attempt budget without
reaching a terminal state it performs one final status check (31 queries
in total) and leaves the tag in its last non-terminal state; the delete
poller then returns `false` to its caller, while the upload poller
returns no value at all — neither reports success. -/
theorem poller_exhaustion_no_success (ru rd : Nat → CheckResult)
    (hu : ∀ n, uploadConvergedResult (ru n) = false)
    (hd : ∀ n, deleteConvergedResult (rd n) = false) :
    countQueries (pollDocumentStatus ru 30 1000).1 = 31 ∧
    (∀ s ∈ statusesAssigned (pollDocumentStatus ru 30 1000).1, s = DocStatus.uploading) ∧
    statusesAssigned (pollDocumentStatus ru 30 1000).1 ≠ [] ∧
    (pollDocumentStatus ru 30 1000).2 = none ∧
    countQueries (pollDeleteStatus rd 30 1000).1 = 31 ∧
    (∀ s ∈ statusesAssigned (pollDeleteStatus rd 30 1000).1, s = DocStatus.deleting) ∧
    statusesAssigned (pollDeleteStatus rd 30 1000).1 ≠ [] ∧
    (pollDeleteStatus rd 30 1000).2 = some false := by
  obtain ⟨_, huq, hus, hune, hur⟩ := pollDocumentStatus_never ru 30 1000 hu
  obtain ⟨hdq, hds, hdne, hdr⟩ := pollDeleteStatus_never rd 30 1000 hd
  exact ⟨huq, hus, hune, hur, hdq, hds, hdne, hdr⟩

theorem poller_exhaustion_no_success_witness :
    (pollDocumentStatus neverConvergedResponses 30 1000).2 = none ∧
    (pollDeleteStatus stillInDbResponses 30 1000).2 = some false :=
  ⟨(poller_exhaustion_no_success neverConvergedResponses stillInDbResponses
      (fun _ => rfl) (fun _ => rfl)).2.2.2.1,
   (poller_exhaustion_no_success neverConvergedResponses stillInDbResponses
      (fun _ => rfl) (fun _ => rfl)).2.2.2.2.2.2.2⟩

/-- C3: for every run of either poller the sequence of status tags
assigned to the resource is `uploading` repeated (at least once)
optionally followed by a single final `uploaded` — respectively
`deleting` repeated optionally followed by a single final `deleted` — so
the tag never leaves the four-value set, never regresses from a terminal
state, and a terminal tag appears only as the last assignment; moreover a
terminal tag is assigned only if some status check (within the budget
plus the final check) actually reported convergence. -/
theorem poller_status_tag_sequences (responses : Nat → CheckResult) (maxA iv : Nat) :
    (∃ k, 1 ≤ k ∧
      (statusesAssigned (pollDocumentStatus responses maxA iv).1 =
          List.replicate k DocStatus.uploading ++ [DocStatus.uploaded] ∨
        statusesAssigned (pollDocumentStatus responses maxA iv).1 =
          List.replicate k DocStatus.uploading)) ∧
    (∃ k, 1 ≤ k ∧
      (statusesAssigned (pollDeleteStatus responses maxA iv).1 =
          List.replicate k DocStatus.deleting ++ [DocStatus.deleted] ∨
        statusesAssigned (pollDeleteStatus responses maxA iv).1 =
          List.replicate k DocStatus.deleting)) ∧
    (DocStatus.uploaded ∈ statusesAssigned (pollDocumentStatus responses maxA iv).1 →
      ∃ n, n ≤ maxA ∧ uploadConvergedResult (responses n) = true) ∧
    (DocStatus.deleted ∈ statusesAssigned (pollDeleteStatus responses maxA iv).1 →
      ∃ n, n ≤ maxA ∧ deleteConvergedResult (responses n) = true) :=
  ⟨pollDocumentStatus_shape responses maxA iv,
   pollDeleteStatus_shape responses maxA iv,
   pollDocumentStatus_uploaded_mem responses maxA iv,
   pollDeleteStatus_deleted_mem responses maxA iv⟩

theorem poller_status_tag_sequences_witness :
    ∃ k, 1 ≤ k ∧
      (statusesAssigned (pollDocumentStatus alwaysConvergedResponses 30 1000).1 =
          List.replicate k DocStatus.uploading ++ [DocStatus.uploaded] ∨
        statusesAssigned (pollDocumentStatus alwaysConvergedResponses 30 1000).1 =
          List.replicate k DocStatus.uploading) :=
  (poller_status_tag_sequences alwaysConvergedResponses 30 1000).1

/-- C6 (counterexample): a status response with `exists_in_storage` and
`exists_in_db` both set but `available` false does not satisfy the upload
poller's convergence test, and a poller fed such responses on every query
never assigns `uploaded` — so the transition does not happen "exactly
when the response reports exists-in-storage AND exists-in-catalog". -/
theorem upload_transition_needs_available_flag :
    uploadConverged ⟨false, true, true⟩ = false ∧
    DocStatus.uploaded ∉ statusesAssigned (pollDocumentStatus storageDbOnlyResponses 30 1000).1 := by
  constructor
  · rfl
  · decide

/-- C6 (amended): on each status query the upload poller transitions to
the terminal `uploaded` tag and stops exactly when the response reports
`available` AND `exists_in_storage` AND `exists_in_db`; otherwise it sets
`uploading` again and waits `intervalMs` before the next query. -/
theorem upload_transition_rule (s : DocumentStatusResponse) (iv : Nat) :
    (uploadStep (.ok s) iv = ([PollAction.setStatus DocStatus.uploaded], true) ↔
      (s.available && s.exists_in_storage && s.exists_in_db) = true) ∧
    (uploadStep (.ok s) iv =
        ([PollAction.setStatus DocStatus.uploading, PollAction.wait iv], false) ↔
      (s.available && s.exists_in_storage && s.exists_in_db) = false) := by
  have he : (s.available && s.exists_in_storage && s.exists_in_db) = uploadConverged s := rfl
  simp only [he]
  by_cases hc : uploadConverged s = true
  · simp [uploadStep, hc]
  · have hc' : uploadConverged s = false := by simpa using hc
    simp [uploadStep, hc']

/-- C7: on each status query the delete poller transitions to the
terminal `deleted` tag, schedules removal of the tracking entry after the
fixed 2000 ms delay and reports success exactly when the response says
the resource is gone from the catalog (`exists_in_db` false, storage not
consulted) or the query itself failed with 404 / "not found"; in
particular, when the catalog entry is already gone on the first check the
poller transitions directly to `deleted` and returns `true`. -/
theorem delete_transition_rule :
    (∀ (r : CheckResult) (iv : Nat),
      deleteStep r iv =
          ([PollAction.setStatus DocStatus.deleted, PollAction.scheduleRemoval 2000], true) ↔
        deleteConvergedResult r = true) ∧
    (∀ (responses : Nat → CheckResult) (s : DocumentStatusResponse) (maxA iv : Nat),
      responses 0 = .ok s → s.exists_in_db = false → 1 ≤ maxA →
      pollDeleteStatus responses maxA iv =
        ([PollAction.setStatus DocStatus.deleting, PollAction.query 0,
          PollAction.setStatus DocStatus.deleted, PollAction.scheduleRemoval 2000],
          some true)) := by
  constructor
  · intro r iv
    rcases r with e | s
    · by_cases hnf : deleteNotFoundError e = true
      · simp [deleteStep, hnf, deleteConvergedResult]
      · have hnf' : deleteNotFoundError e = false := by simpa using hnf
        simp [deleteStep, hnf', deleteConvergedResult]
    · rcases hdb : s.exists_in_db with _ | _
      · simp [deleteStep, hdb, deleteConvergedResult]
      · simp [deleteStep, hdb, deleteConvergedResult]
  · intro responses s maxA iv hre hdb hmax
    cases maxA with
    | zero => omega
    | succ m =>
        simp [pollDeleteStatus, pollDeleteLoop, deleteStep, hre, hdb]

theorem delete_transition_rule_witness :
    pollDeleteStatus neverConvergedResponses 30 1000 =
      ([PollAction.setStatus DocStatus.deleting, PollAction.query 0,
        PollAction.setStatus DocStatus.deleted, PollAction.scheduleRemoval 2000],
        some true) :=
  delete_transition_rule.2 neverConvergedResponses ⟨false, false, false⟩ 30 1000
    rfl rfl (by omega)

/-- C4: a sign-in during which the identity-verification call fails with
HTTP 403 and a detail mentioning the domain policy makes the `jwt`
callback rethrow "Email domain not allowed": session creation is aborted
and no token record (hence no backend credential) is produced. The
hypothesis covers whichever verification path the callback actually takes
(ID token, or email fallback). -/
theorem jwt_domain_rejection_aborts_signin (prior : TokenRecord)
    (idToken userId userEmail : Option String)
    (vr ver : Except BackendErrorInfo VerifyResponse) (e : BackendErrorInfo)
    (hdom : isDomainRejection e = true)
    (hcall : (if jsStrTruthy idToken then vr else ver) = .error e)
    (hpath : (jsStrTruthy idToken || jsStrTruthy userEmail) = true) :
    jwtCallback prior true idToken userId userEmail vr ver =
      .error "Email domain not allowed" := by
  by_cases hid : jsStrTruthy idToken = true
  · have hvr : vr = .error e := by simpa [hid] using hcall
    simp [jwtCallback, hid, hvr, idTokenBranch, exchangeFailure, hdom]
  · have hid' : jsStrTruthy idToken = false := by simpa using hid
    have hem : jsStrTruthy userEmail = true := by simpa [hid'] using hpath
    have hver : ver = .error e := by simpa [hid'] using hcall
    simp [jwtCallback, hid', hem, hver, emailFallbackBranch, exchangeFailure, hdom]

theorem jwt_domain_rejection_aborts_signin_witness :
    jwtCallback ⟨none, none, false, none, none⟩ true (some "google-id-token")
        (some "user-1") (some "dev@example.com")
        (.error ⟨some 403, some "Email domain not allowed",
          "Request failed with status code 403"⟩)
        (.ok ⟨some "tok", none⟩) = .error "Email domain not allowed" :=
  jwt_domain_rejection_aborts_signin _ _ _ _ _ _ _ (by decide) rfl (by decide)

/-- C5: a sign-in during which the token exchange fails for any reason
other than a 403 domain rejection still succeeds: the `jwt` callback
returns a token record (no throw) whose `backendToken` is the explicit
`null` marker — not left `undefined` — and whose `backendError` retains
the failure reason. The record is fresh at sign-in, so `backendToken` was
`undefined` before the exchange. -/
theorem jwt_backend_failure_degrades_session (prior : TokenRecord)
    (idToken userId userEmail : Option String)
    (vr ver : Except BackendErrorInfo VerifyResponse) (e : BackendErrorInfo)
    (hfresh : prior.backendToken = none)
    (hdom : isDomainRejection e = false)
    (hcall : (if jsStrTruthy idToken then vr else ver) = .error e)
    (hpath : (jsStrTruthy idToken || jsStrTruthy userEmail) = true) :
    ∃ tok : TokenRecord,
      jwtCallback prior true idToken userId userEmail vr ver = .ok tok ∧
      tok.backendToken = some none ∧
      tok.backendError = some (backendErrorText e) := by
  by_cases hid : jsStrTruthy idToken = true
  · have hvr : vr = .error e := by simpa [hid] using hcall
    refine ⟨{ backendToken := preservedBackendToken prior.backendToken
              userId := jsOrStr (jsOrStr userId userEmail) none
              isAdmin := false
              email := jsOrStr userEmail none
              backendError := some (backendErrorText e) }, ?_, ?_, rfl⟩
    · simp [jwtCallback, hid, hvr, idTokenBranch, exchangeFailure, hdom]
    · simp [preservedBackendToken, hfresh]
  · have hid' : jsStrTruthy idToken = false := by simpa using hid
    have hem : jsStrTruthy userEmail = true := by simpa [hid'] using hpath
    have hver : ver = .error e := by simpa [hid'] using hcall
    refine ⟨{ backendToken := preservedBackendToken prior.backendToken
              userId := jsOrStr (jsOrStr userId userEmail) none
              isAdmin := false
              email := jsOrStr userEmail none
              backendError := some (backendErrorText e) }, ?_, ?_, rfl⟩
    · simp [jwtCallback, hid', hem, hver, emailFallbackBranch, exchangeFailure, hdom]
    · simp [preservedBackendToken, hfresh]

theorem jwt_backend_failure_degrades_session_witness :
    ∃ tok : TokenRecord,
      jwtCallback ⟨none, none, false, none, none⟩ true (some "google-id-token")
          (some "user-1") (some "dev@example.com")
          (.error ⟨none, none, "timeout of 20000ms exceeded"⟩)
          (.ok ⟨some "tok", none⟩) = .ok tok ∧
      tok.backendToken = some none ∧
      tok.backendError = some (backendErrorText ⟨none, none, "timeout of 20000ms exceeded"⟩) :=
  jwt_backend_failure_degrades_session _ _ _ _ _ _ _ rfl (by decide) rfl (by decide)

/-- C8: whenever a send actually happens (not read-only, non-blank input,
not already loading), the new transcript is the old one with exactly two
messages appended: first the optimistic user message, then the reply that
the network result produced (assistant answer or error entry) — so the
user message always precedes, in the stored sequence, the reply it
provoked, whatever the network outcome was. -/
theorem chat_user_message_precedes_reply (isReadOnly : Bool) (input : String)
    (loading : Bool) (conversationId : Option String) (nowId nowIso errId : String)
    (messages : List ChatMessage) (result : Except (Option String) ChatResponseData)
    (h1 : isReadOnly = false) (h2 : strTrim input ≠ "") (h3 : loading = false) :
    ∃ reply : ChatMessage,
      handleSend isReadOnly input loading conversationId nowId nowIso errId messages result =
        messages ++ [mkUserMessage conversationId nowId nowIso (strTrim input), reply] ∧
      (mkUserMessage conversationId nowId nowIso (strTrim input)).role = "USER" ∧
      reply.role = "ASSISTANT" := by
  refine ⟨mkReplyMessage conversationId errId nowIso result, ?_, rfl, ?_⟩
  · simp [handleSend, h1, h2, h3, addMessage]
  · rcases result with em | r
    · rfl
    · rfl

theorem chat_user_message_precedes_reply_witness :
    ∃ reply : ChatMessage,
      handleSend false "hello" false none "1700000000000" "2024-01-01T00:00:00.000Z"
          "error-1700000000001" [] (.error (some "Network Error")) =
        [] ++ [mkUserMessage none "1700000000000" "2024-01-01T00:00:00.000Z"
          (strTrim "hello"), reply] ∧
      (mkUserMessage none "1700000000000" "2024-01-01T00:00:00.000Z"
        (strTrim "hello")).role = "USER" ∧
      reply.role = "ASSISTANT" :=
  chat_user_message_precedes_reply false "hello" false none "1700000000000"
    "2024-01-01T00:00:00.000Z" "error-1700000000001" [] (.error (some "Network Error"))
    rfl (by decide) rfl

lemma authStep_preserves (sr : Except Unit (Option SessionData)) (cfg : RequestConfig) :
    (authStep sr cfg).data = cfg.data ∧ (authStep sr cfg).method = cfg.method := by
  rcases sr with u | sess
  · exact ⟨rfl, rfl⟩
  · rcases hbt : sess.bind SessionData.backendToken with _ | v
    · simp [authStep, hbt]
    · rcases v with s | n | b | _ | _ | _
      · simp only [authStep, hbt]
        split
        · exact ⟨rfl, rfl⟩
        · exact ⟨rfl, rfl⟩
      · simp [authStep, hbt]
      · simp [authStep, hbt]
      · simp [authStep, hbt]
      · simp [authStep, hbt]
      · simp [authStep, hbt]

lemma formDataStep_preserves (cfg : RequestConfig) :
    (formDataStep cfg).data = cfg.data ∧ (formDataStep cfg).method = cfg.method := by
  unfold formDataStep
  split
  · exact ⟨rfl, rfl⟩
  · exact ⟨rfl, rfl⟩

lemma formDataStep_auth (cfg : RequestConfig) :
    (formDataStep cfg).authorization = cfg.authorization := by
  unfold formDataStep
  split
  · rfl
  · rfl

lemma bodyStripStep_auth (cfg : RequestConfig) :
    (bodyStripStep cfg).authorization = cfg.authorization := by
  simp only [bodyStripStep]
  split
  · rfl
  · rfl

lemma authStep_auth (sr : Except Unit (Option SessionData)) (cfg : RequestConfig)
    (h : cfg.authorization = none) :
    (authStep sr cfg).authorization =
      match backendTokenOf sr with
      | some (JsValue.str s) =>
          if s ≠ "" && (strTrim s).length > 0 then some ("Bearer " ++ s) else none
      | _ => none := by
  rcases sr with u | sess
  · simp [authStep, backendTokenOf, h]
  · rcases hbt : sess.bind SessionData.backendToken with _ | v
    · simp [authStep, backendTokenOf, hbt, h]
    · rcases v with s | n | b | _ | _ | _
      · simp only [authStep, backendTokenOf, hbt]
        split
        · simp
        · simp [h]
      · simp [authStep, backendTokenOf, hbt, h]
      · simp [authStep, backendTokenOf, hbt, h]
      · simp [authStep, backendTokenOf, hbt, h]
      · simp [authStep, backendTokenOf, hbt, h]
      · simp [authStep, backendTokenOf, hbt, h]

/-- C9 (counterexample): a GET request whose caller supplied the falsy
body `0` still carries that body after the interceptor runs — the
truthiness test `config.data` skips falsy payloads, so not every
caller-supplied body is removed. -/
theorem get_request_body_not_always_removed :
    (requestInterceptor (.ok none)
        ⟨some "get", some (JsValue.num 0), none, some "application/json"⟩).data =
      some (JsValue.num 0) := rfl

/-- C9 (amended): for a request whose method uppercases to GET or HEAD,
the interceptor removes the caller-supplied body exactly when that body is
truthy; a falsy body value (such as `0`, `false` or the empty string) is
left in place, and an absent body stays absent. -/
theorem get_head_truthy_body_removed (sr : Except Unit (Option SessionData))
    (cfg : RequestConfig)
    (hm : cfg.method.map strUpper = some "GET" ∨ cfg.method.map strUpper = some "HEAD") :
    (requestInterceptor sr cfg).data =
      if (match cfg.data with | some v => v.truthy | none => false) then none
      else cfg.data := by
  obtain ⟨ha1, ha2⟩ := authStep_preserves sr cfg
  obtain ⟨hf1, hf2⟩ := formDataStep_preserves (authStep sr cfg)
  have hcd : (formDataStep (authStep sr cfg)).data = cfg.data := hf1.trans ha1
  have hcm : (formDataStep (authStep sr cfg)).method = cfg.method := hf2.trans ha2
  have hgm : ((formDataStep (authStep sr cfg)).method.map strUpper == some "GET" ||
      (formDataStep (authStep sr cfg)).method.map strUpper == some "HEAD") = true := by
    rw [hcm]
    rcases hm with hm | hm
    · simp [hm]
    · simp [hm]
  unfold requestInterceptor bodyStripStep
  simp only [hgm, Bool.true_and, hcd]
  by_cases ht : (match cfg.data with | some v => v.truthy | none => false) = true
  · simp [ht]
  · have ht' : (match cfg.data with | some v => v.truthy | none => false) = false := by
      simpa using ht
    simp [ht', hcd]

theorem get_head_truthy_body_removed_witness :
    (requestInterceptor (.ok none)
        ⟨some "get", some (JsValue.str "hello"), none, some "application/json"⟩).data =
      none :=
  (get_head_truthy_body_removed (.ok none)
      ⟨some "get", some (JsValue.str "hello"), none, some "application/json"⟩
      (Or.inl (by decide))).trans (by decide)

/-- C10: starting from a config with no Authorization header (as the
client builds them), the interceptor attaches `Bearer <token>` exactly
when the session read succeeded and the session's `backendToken` is a
string that is non-empty after trimming; in every other case — no
session, a `null`/`undefined`/non-string token, a blank token, or a
failed session read — the returned config still exists but carries no
Authorization header, so `Bearer null` / `Bearer undefined` is never
produced and the request is never blocked client-side. -/
theorem auth_header_iff_nonblank_token (sr : Except Unit (Option SessionData))
    (cfg : RequestConfig) (h : cfg.authorization = none) :
    (∀ s, backendTokenOf sr = some (JsValue.str s) → (strTrim s).length > 0 →
      (requestInterceptor sr cfg).authorization = some ("Bearer " ++ s)) ∧
    ((match backendTokenOf sr with
      | some (JsValue.str s) => (strTrim s).length = 0
      | _ => true) → (requestInterceptor sr cfg).authorization = none) := by
  have hfb : (requestInterceptor sr cfg).authorization = (authStep sr cfg).authorization := by
    unfold requestInterceptor
    rw [bodyStripStep_auth, formDataStep_auth]
  constructor
  · intro s hs hlen
    rw [hfb, authStep_auth sr cfg h, hs]
    have hne : s ≠ "" := by
      intro he
      rw [he] at hlen
      exact absurd hlen (by decide)
    simp [hne, hlen]
  · intro hcond
    rw [hfb, authStep_auth sr cfg h]
    rcases hbt : backendTokenOf sr with _ | v
    · rfl
    · rcases v with s | n | b | _ | _ | _
      · rw [hbt] at hcond
        have hlen : (strTrim s).length = 0 := hcond
        simp [hlen]
      · rfl
      · rfl
      · rfl
      · rfl
      · rfl

theorem auth_header_iff_nonblank_token_witness :
    (requestInterceptor (.ok (some ⟨some (JsValue.str "backend-jwt")⟩))
        ⟨some "get", none, none, some "application/json"⟩).authorization =
      some ("Bearer " ++ "backend-jwt") :=
  (auth_header_iff_nonblank_token (.ok (some ⟨some (JsValue.str "backend-jwt")⟩))
      ⟨some "get", none, none, some "application/json"⟩ rfl).1
    "backend-jwt" rfl (by decide)

end Janki
